import Mathlib

/-!
Verification of the schema-to-tool converter.

The program converts a JSON-Schema-like document into tool definitions for
two LLM providers (OpenAI and Anthropic) and structurally validates such
tool definitions.  The embedding below translates, definition by definition,
`schema_to_tool/converter.py`, `schema_to_tool/formats/openai.py` and
`schema_to_tool/formats/anthropic.py`.

JSON values are modelled by a mutual inductive: `Json` for values,
`JsonList` for arrays and `JsonObj` for objects.  A `JsonObj` is an
insertion-ordered association list, which is how Python dictionaries behave
(unique keys, insertion order preserved; the constructions in this program
only ever build objects with distinct keys).
-/

mutual

inductive Json where
  | null
  | bool (b : Bool)
  | num (n : Int)
  | str (s : String)
  | arr (elems : JsonList)
  | obj (entries : JsonObj)
deriving DecidableEq, Repr

inductive JsonList where
  | nil
  | cons (hd : Json) (tl : JsonList)
deriving DecidableEq, Repr

inductive JsonObj where
  | nil
  | cons (key : String) (val : Json) (tl : JsonObj)
deriving DecidableEq, Repr

end

namespace JsonObj

/-- `d.get(key)` as an `Option`: the value stored at `key`, if any. -/
def get? : JsonObj → String → Option Json
  | .nil, _ => none
  | .cons k v tl, key => if k = key then some v else get? tl key

/-- Python `d.get(key, default)`. -/
def getD (o : JsonObj) (key : String) (d : Json) : Json :=
  (o.get? key).getD d

/-- Python `key in d`. -/
def hasKey (o : JsonObj) (key : String) : Bool :=
  (o.get? key).isSome

/-- Python `d.pop(key, None)`: remove the entry for `key` (keys are unique
in a Python dictionary, so removing the first occurrence is exact). -/
def pop : JsonObj → String → JsonObj
  | .nil, _ => .nil
  | .cons k v tl, key => if k = key then tl else .cons k v (pop tl key)

/-- Python `d[key] = v`: replace the value in place if the key is present,
otherwise append the new entry at the end (insertion order). -/
def set : JsonObj → String → Json → JsonObj
  | .nil, key, v => .cons key v .nil
  | .cons k w tl, key, v => if k = key then .cons k v tl else .cons k w (set tl key v)

/-- Python `base.update(extra)`: assign every entry of `extra`, in order. -/
def update : JsonObj → JsonObj → JsonObj
  | base, .nil => base
  | base, .cons k v tl => update (base.set k v) tl

/-- The list of keys, in order. -/
def keys : JsonObj → List String
  | .nil => []
  | .cons k _ tl => k :: keys tl

end JsonObj

/-! ## Name normalization (`SchemaConverter._normalize_name`)

Python string predicates.  `str.isalnum` and `str.isdigit` are
Unicode-aware; the model below is faithful on the Basic Latin (ASCII) and
Latin-1 Supplement ranges (code points up to U+00FF) and treats every higher
code point as neither alphanumeric nor a digit.  In the Latin-1 Supplement,
Python counts as alphanumeric: the ordinal indicators U+00AA and U+00BA, the
superscripts U+00B2, U+00B3, U+00B9, the micro sign U+00B5, the vulgar
fractions U+00BC..U+00BE, and the letters U+00C0..U+00FF except the
multiplication and division signs U+00D7 and U+00F7; it counts as digits the
superscripts U+00B2, U+00B3 and U+00B9. -/

/-- The Latin-1 Supplement code points on which Python `str.isalnum` is true. -/
def pyIsAlnumLatin1 (n : Nat) : Bool :=
  decide (n = 0xAA ∨ n = 0xB2 ∨ n = 0xB3 ∨ n = 0xB5 ∨ n = 0xB9 ∨ n = 0xBA ∨
    n = 0xBC ∨ n = 0xBD ∨ n = 0xBE ∨
    (0xC0 ≤ n ∧ n ≤ 0xFF ∧ n ≠ 0xD7 ∧ n ≠ 0xF7))

/-- Python `c.isalnum()`, modelled on code points up to U+00FF. -/
def pyIsAlnum (c : Char) : Bool :=
  c.isAlphanum || pyIsAlnumLatin1 c.toNat

/-- Python `c.isdigit()`, modelled on code points up to U+00FF. -/
def pyIsDigit (c : Char) : Bool :=
  c.isDigit || decide (c.toNat = 0xB2 ∨ c.toNat = 0xB3 ∨ c.toNat = 0xB9)

/-- `name.replace(" ", "_").replace("-", "_")`, per character. -/
def replaceChar (c : Char) : Char :=
  if c = ' ' then '_' else if c = '-' then '_' else c

/-- The character filter of `_normalize_name`: keep `c` when
`c.isalnum() or c == "_"`. -/
def keepChar (c : Char) : Bool :=
  pyIsAlnum c || c = '_'

/-- The replace-then-filter part of `_normalize_name`. -/
def normCore (cs : List Char) : List Char :=
  (cs.map replaceChar).filter keepChar

/-- `_normalize_name` on the character list: replace space and hyphen by
underscore, drop every character that is not alphanumeric or underscore,
and prepend an underscore when the first character is a digit. -/
def normChars (cs : List Char) : List Char :=
  match normCore cs with
  | [] => []
  | c :: rest => if pyIsDigit c then '_' :: c :: rest else c :: rest

/-- `SchemaConverter._normalize_name`: the empty result falls back to
`"unnamed_tool"` (Python `normalized or "unnamed_tool"`). -/
def _normalize_name (s : String) : String :=
  match normChars s.data with
  | [] => "unnamed_tool"
  | cs => String.mk cs

/-- The regular expression of the specification, `^_?[A-Za-z0-9_]*$`.
Since `_` belongs to the character class, a string matches exactly when all
of its characters are ASCII alphanumeric or underscore. -/
def matchesNamePattern (s : String) : Bool :=
  s.data.all fun c => c.isAlphanum || c = '_'

/-! ## Data model and errors -/

deriving instance DecidableEq for Except

/-- The Python exceptions this program can raise. -/
inductive PyErr where
  | valueError (msg : String)
  | attributeError (msg : String)
  | typeError (msg : String)
deriving DecidableEq, Repr

/-- Canonical metadata: the `{name, description, parameters}` dictionary
returned by `SchemaConverter._extract_tool_metadata`.  The code guarantees
`name` is a string (`_normalize_name` returns one); `description` and
`parameters` are arbitrary JSON values taken from the document. -/
structure ToolMetadata where
  name : String
  description : Json
  parameters : Json
deriving DecidableEq, Repr

/-! ## `SchemaConverter` (converter.py) -/

namespace SchemaConverter

/-- `SchemaConverter.SUPPORTED_FORMATS`. -/
def SUPPORTED_FORMATS : List String := ["openai", "anthropic"]

/-- `SchemaConverter._extract_tool_metadata`.  The receiver is the schema
dictionary held by the converter (the constructor rejects non-dictionaries).
The call raises `AttributeError` when the `name`/`title` value is not a
string, because `_normalize_name` calls `.replace` on it. -/
def _extract_tool_metadata (schema : JsonObj) : Except PyErr ToolMetadata :=
  let nameVal := schema.getD "name" (schema.getD "title" (Json.str "unnamed_tool"))
  let description := schema.getD "description" (Json.str "")
  let parameters : Json :=
    if schema.hasKey "properties" then
      let p1 : JsonObj := .cons "type" (Json.str "object")
        (.cons "properties" (schema.getD "properties" (Json.obj .nil)) .nil)
      let p2 := if schema.hasKey "required" then p1.set "required" (schema.getD "required" Json.null) else p1
      let p3 := if schema.getD "additionalProperties" Json.null = Json.null then p2
        else p2.set "additionalProperties" (schema.getD "additionalProperties" Json.null)
      Json.obj p3
    else if schema.hasKey "parameters" then
      schema.getD "parameters" Json.null
    else
      let p := ((schema.pop "name").pop "title").pop "description"
      let p := if p.hasKey "type" then p else p.set "type" (Json.str "object")
      Json.obj p
  match nameVal with
  | Json.str s => Except.ok ⟨_normalize_name s, description, parameters⟩
  | _ => Except.error (PyErr.attributeError "replace is not an attribute of a non-string name")

end SchemaConverter

/-! ## `OpenAIFormatter` (formats/openai.py) -/

namespace OpenAIFormatter

/-- `OpenAIFormatter.format`. -/
def format (metadata : ToolMetadata) : Json :=
  Json.obj (.cons "type" (Json.str "function")
    (.cons "function" (Json.obj (.cons "name" (Json.str metadata.name)
      (.cons "description" metadata.description
        (.cons "parameters" metadata.parameters .nil)))) .nil))

/-- `OpenAIFormatter.validate`, translated return site by return site: the
error list grows by sequential appends and each `return` yields
`(len(errors) == 0, errors)`, except the initial non-dictionary rejection
which returns `(False, [single defect])`. -/
def validate (tool : Json) : Bool × List String :=
  match tool with
  | Json.obj es =>
    let errors : List String :=
      if es.getD "type" Json.null = Json.str "function" then []
      else ["Tool \x27type\x27 must be \x27function\x27"]
    if es.hasKey "function" = false then
      let errors := errors ++ ["Tool must have a \x27function\x27 field"]
      ((errors.length == 0 : Bool), errors)
    else
      match es.getD "function" Json.null with
      | Json.obj fes =>
        let errors := errors ++
          (if fes.hasKey "name" = false then ["Function must have a \x27name\x27 field"]
           else match fes.getD "name" Json.null with
             | Json.str s => if s = "" then ["Function \x27name\x27 cannot be empty"] else []
             | _ => ["Function \x27name\x27 must be a string"])
        let errors := errors ++
          (if fes.hasKey "description" then
             match fes.getD "description" Json.null with
             | Json.str _ => []
             | _ => ["Function \x27description\x27 must be a string"]
           else [])
        let errors := errors ++
          (if fes.hasKey "parameters" = false then ["Function must have a \x27parameters\x27 field"]
           else match fes.getD "parameters" Json.null with
             | Json.obj pes =>
               (if pes.getD "type" Json.null = Json.str "object" then []
                else ["Function parameters \x27type\x27 must be \x27object\x27"]) ++
               (if pes.hasKey "properties" then [] else ["Function parameters must have \x27properties\x27"])
             | _ => ["Function \x27parameters\x27 must be a dictionary"])
        ((errors.length == 0 : Bool), errors)
      | _ =>
        let errors := errors ++ ["\x27function\x27 must be a dictionary"]
        ((errors.length == 0 : Bool), errors)
  | _ => (false, ["Tool must be a dictionary"])

/-- `OpenAIFormatter.extract_schema`.  `tool` is a dictionary per the
signature.  `tool.get("function", {})` may yield a non-dictionary, on which
`.get` raises `AttributeError`; `schema.update(params)` raises `TypeError`
when `params` is not a mapping. -/
def extract_schema (tool : JsonObj) : Except PyErr Json :=
  match tool.getD "function" (Json.obj .nil) with
  | Json.obj fes =>
    let schema : JsonObj := .cons "name" (fes.getD "name" (Json.str ""))
      (.cons "description" (fes.getD "description" (Json.str "")) .nil)
    match fes.getD "parameters" (Json.obj .nil) with
    | Json.obj pes => Except.ok (Json.obj (schema.update pes))
    | _ => Except.error (PyErr.typeError "update argument is not a mapping")
  | _ => Except.error (PyErr.attributeError "get is not an attribute of a non-dictionary function")

end OpenAIFormatter

/-! ## `AnthropicFormatter` (formats/anthropic.py) -/

namespace AnthropicFormatter

/-- `AnthropicFormatter.format`. -/
def format (metadata : ToolMetadata) : Json :=
  Json.obj (.cons "name" (Json.str metadata.name)
    (.cons "description" metadata.description
      (.cons "input_schema" metadata.parameters .nil)))

/-- `AnthropicFormatter.validate`: a single pass with no early return after
the dictionary check; the final return is `(len(errors) == 0, errors)`. -/
def validate (tool : Json) : Bool × List String :=
  match tool with
  | Json.obj es =>
    let errors : List String :=
      (if es.hasKey "name" = false then ["Tool must have a \x27name\x27 field"]
       else match es.getD "name" Json.null with
         | Json.str s => if s = "" then ["Tool \x27name\x27 cannot be empty"] else []
         | _ => ["Tool \x27name\x27 must be a string"]) ++
      (if es.hasKey "description" then
         match es.getD "description" Json.null with
         | Json.str _ => []
         | _ => ["Tool \x27description\x27 must be a string"]
       else []) ++
      (if es.hasKey "input_schema" = false then ["Tool must have an \x27input_schema\x27 field"]
       else match es.getD "input_schema" Json.null with
         | Json.obj ses =>
           (if ses.getD "type" Json.null = Json.str "object" then []
            else ["Tool input_schema \x27type\x27 must be \x27object\x27"]) ++
           (if ses.hasKey "properties" then [] else ["Tool input_schema must have \x27properties\x27"])
         | _ => ["Tool \x27input_schema\x27 must be a dictionary"])
    ((errors.length == 0 : Bool), errors)
  | _ => (false, ["Tool must be a dictionary"])

/-- `AnthropicFormatter.extract_schema`. -/
def extract_schema (tool : JsonObj) : Except PyErr Json :=
  let schema : JsonObj := .cons "name" (tool.getD "name" (Json.str ""))
    (.cons "description" (tool.getD "description" (Json.str "")) .nil)
  match tool.getD "input_schema" (Json.obj .nil) with
  | Json.obj ses => Except.ok (Json.obj (schema.update ses))
  | _ => Except.error (PyErr.typeError "update argument is not a mapping")

end AnthropicFormatter

namespace SchemaConverter

/-- `SchemaConverter.convert`: the format is checked against
`SUPPORTED_FORMATS` before any extraction happens; an unrecognized format
raises `ValueError` with the message built in the source. -/
def convert (schema : JsonObj) (fm : String) : Except PyErr Json :=
  if fm ∈ SUPPORTED_FORMATS then
    match _extract_tool_metadata schema with
    | Except.error e => Except.error e
    | Except.ok metadata =>
      if fm = "openai" then Except.ok (OpenAIFormatter.format metadata)
      else if fm = "anthropic" then Except.ok (AnthropicFormatter.format metadata)
      else Except.error (PyErr.valueError ("Unknown format: " ++ fm))
  else
    Except.error (PyErr.valueError
      ("Unsupported format: " ++ fm ++ ". Supported formats: " ++ String.intercalate ", " SUPPORTED_FORMATS))

end SchemaConverter

namespace SchemaConverter

/-- State-threaded rendering of `_extract_tool_metadata` for the frame
property.  Every dictionary-mutating statement of the source is applied to
the local it targets; the value of `self.schema` after the call is returned
together with the result.  On extraction path 3 the mutations (`pop`, the
`type` assignment) target `self.schema.copy()`, a distinct object, so
`self.schema` itself is returned as it came in. -/
def _extract_tool_metadata_st (schema : JsonObj) : JsonObj × Except PyErr ToolMetadata :=
  let nameVal := schema.getD "name" (schema.getD "title" (Json.str "unnamed_tool"))
  let description := schema.getD "description" (Json.str "")
  let parameters : Json :=
    if schema.hasKey "properties" then
      let p1 : JsonObj := .cons "type" (Json.str "object")
        (.cons "properties" (schema.getD "properties" (Json.obj .nil)) .nil)
      let p2 := if schema.hasKey "required" then p1.set "required" (schema.getD "required" Json.null) else p1
      let p3 := if schema.getD "additionalProperties" Json.null = Json.null then p2
        else p2.set "additionalProperties" (schema.getD "additionalProperties" Json.null)
      Json.obj p3
    else if schema.hasKey "parameters" then
      schema.getD "parameters" Json.null
    else
      let copied := schema
      let copied := copied.pop "name"
      let copied := copied.pop "title"
      let copied := copied.pop "description"
      let copied := if copied.hasKey "type" then copied else copied.set "type" (Json.str "object")
      Json.obj copied
  (schema,
    match nameVal with
    | Json.str s => Except.ok ⟨_normalize_name s, description, parameters⟩
    | _ => Except.error (PyErr.attributeError "replace is not an attribute of a non-string name"))

/-- State-threaded rendering of `convert`: the schema dictionary is handed
to the extractor and its post-call value is returned with the result; the
formatters read the metadata and build fresh dictionaries. -/
def convert_st (schema : JsonObj) (fm : String) : JsonObj × Except PyErr Json :=
  if fm ∈ SUPPORTED_FORMATS then
    match _extract_tool_metadata_st schema with
    | (schema1, Except.error e) => (schema1, Except.error e)
    | (schema1, Except.ok metadata) =>
      if fm = "openai" then (schema1, Except.ok (OpenAIFormatter.format metadata))
      else if fm = "anthropic" then (schema1, Except.ok (AnthropicFormatter.format metadata))
      else (schema1, Except.error (PyErr.valueError ("Unknown format: " ++ fm)))
  else
    (schema, Except.error (PyErr.valueError
      ("Unsupported format: " ++ fm ++ ". Supported formats: " ++ String.intercalate ", " SUPPORTED_FORMATS)))

end SchemaConverter

/-- Canonical Metadata as the data model of the specification describes it:
a normalized, non-empty `name`, a string `description`, and a parameters
object that has `type: "object"` and carries a `properties` key.  This
definition follows the words of the specification (section 3); it is the
hypothesis of the round-trip property. -/
def IsCanonicalMeta (m : ToolMetadata) : Prop :=
  m.name ≠ "" ∧ matchesNamePattern m.name = true ∧
  (∃ d, m.description = Json.str d) ∧
  (∃ pes, m.parameters = Json.obj pes ∧
    pes.getD "type" Json.null = Json.str "object" ∧
    pes.hasKey "properties" = true)

/-! ## Standalone validator checks

One definition per field-level check of the two validators, used to state
that a validator accumulates the defects of every applicable check. -/

namespace OpenAIFormatter

/-- The top-level `type` check of `OpenAIFormatter.validate`. -/
def checkToolType (es : JsonObj) : List String :=
  if es.getD "type" Json.null = Json.str "function" then []
  else ["Tool \x27type\x27 must be \x27function\x27"]

/-- The `function.name` checks of `OpenAIFormatter.validate`. -/
def checkFunctionName (fes : JsonObj) : List String :=
  if fes.hasKey "name" = false then ["Function must have a \x27name\x27 field"]
  else match fes.getD "name" Json.null with
    | Json.str s => if s = "" then ["Function \x27name\x27 cannot be empty"] else []
    | _ => ["Function \x27name\x27 must be a string"]

/-- The `function.description` check of `OpenAIFormatter.validate`. -/
def checkFunctionDescription (fes : JsonObj) : List String :=
  if fes.hasKey "description" then
    match fes.getD "description" Json.null with
    | Json.str _ => []
    | _ => ["Function \x27description\x27 must be a string"]
  else []

/-- The `function.parameters` checks of `OpenAIFormatter.validate`. -/
def checkFunctionParams (fes : JsonObj) : List String :=
  if fes.hasKey "parameters" = false then ["Function must have a \x27parameters\x27 field"]
  else match fes.getD "parameters" Json.null with
    | Json.obj pes =>
      (if pes.getD "type" Json.null = Json.str "object" then []
       else ["Function parameters \x27type\x27 must be \x27object\x27"]) ++
      (if pes.hasKey "properties" then [] else ["Function parameters must have \x27properties\x27"])
    | _ => ["Function \x27parameters\x27 must be a dictionary"]

end OpenAIFormatter

namespace AnthropicFormatter

/-- The `name` checks of `AnthropicFormatter.validate`. -/
def checkToolName (es : JsonObj) : List String :=
  if es.hasKey "name" = false then ["Tool must have a \x27name\x27 field"]
  else match es.getD "name" Json.null with
    | Json.str s => if s = "" then ["Tool \x27name\x27 cannot be empty"] else []
    | _ => ["Tool \x27name\x27 must be a string"]

/-- The `description` check of `AnthropicFormatter.validate`. -/
def checkToolDescription (es : JsonObj) : List String :=
  if es.hasKey "description" then
    match es.getD "description" Json.null with
    | Json.str _ => []
    | _ => ["Tool \x27description\x27 must be a string"]
  else []

/-- The `input_schema` checks of `AnthropicFormatter.validate`. -/
def checkInputSchema (es : JsonObj) : List String :=
  if es.hasKey "input_schema" = false then ["Tool must have an \x27input_schema\x27 field"]
  else match es.getD "input_schema" Json.null with
    | Json.obj ses =>
      (if ses.getD "type" Json.null = Json.str "object" then []
       else ["Tool input_schema \x27type\x27 must be \x27object\x27"]) ++
      (if ses.hasKey "properties" then [] else ["Tool input_schema must have \x27properties\x27"])
    | _ => ["Tool \x27input_schema\x27 must be a dictionary"]

end AnthropicFormatter

/-! ## Dictionary lemmas -/

namespace JsonObj

theorem get?_set_self : ∀ (o : JsonObj) (k : String) (v : Json), (o.set k v).get? k = some v
  | .nil, k, v => by simp [set, get?]
  | .cons k' w tl, k, v => by
    by_cases h : k' = k
    · subst h; simp [set, get?]
    · simp [set, get?, h, get?_set_self tl k v]

theorem get?_set_ne : ∀ (o : JsonObj) (k' k : String) (v : Json), k' ≠ k →
    (o.set k' v).get? k = o.get? k
  | .nil, k', k, v, h => by simp [set, get?, h]
  | .cons k0 w tl, k', k, v, h => by
    by_cases h0 : k0 = k'
    · subst h0; simp [set, get?, h]
    · simp [set, get?, h0, get?_set_ne tl k' k v h]

theorem get?_pop_ne : ∀ (o : JsonObj) (k' k : String), k' ≠ k →
    (o.pop k').get? k = o.get? k
  | .nil, k', k, h => by simp [pop]
  | .cons k0 w tl, k', k, h => by
    by_cases h0 : k0 = k'
    · subst h0
      have hk : k0 ≠ k := h
      simp [pop, get?, hk]
    · simp [pop, get?, h0, get?_pop_ne tl k' k h]

theorem hasKey_pop_ne (o : JsonObj) (k' k : String) (h : k' ≠ k) :
    (o.pop k').hasKey k = o.hasKey k := by
  simp [hasKey, get?_pop_ne o k' k h]

theorem get?_none_of_not_mem_keys : ∀ (o : JsonObj) (k : String), k ∉ o.keys →
    o.get? k = none
  | .nil, k, _ => rfl
  | .cons k0 w tl, k, h => by
    simp only [keys, List.mem_cons, not_or] at h
    have hne : k0 ≠ k := fun hh => h.1 hh.symm
    simp [get?, hne, get?_none_of_not_mem_keys tl k h.2]

theorem get?_update_none : ∀ (extra base : JsonObj) (k : String), extra.get? k = none →
    (base.update extra).get? k = base.get? k
  | .nil, base, k, _ => rfl
  | .cons k1 v1 tl, base, k, h => by
    simp only [get?] at h
    by_cases h1 : k1 = k
    · simp [h1] at h
    · simp only [h1, if_false] at h
      simp only [update]
      rw [get?_update_none tl (base.set k1 v1) k h, get?_set_ne base k1 k v1 h1]

theorem get?_update_some : ∀ (extra base : JsonObj) (k : String) (v : Json),
    extra.get? k = some v → extra.keys.Nodup →
    (base.update extra).get? k = some v
  | .nil, base, k, v, h, _ => by simp [get?] at h
  | .cons k1 v1 tl, base, k, v, h, hnd => by
    simp only [keys, List.nodup_cons] at hnd
    simp only [get?] at h
    by_cases h1 : k1 = k
    · subst h1
      rw [if_pos rfl] at h
      cases h
      simp only [update]
      rw [get?_update_none tl (base.set k1 v1) k1 (get?_none_of_not_mem_keys tl k1 hnd.1)]
      exact get?_set_self base k1 v1
    · simp only [h1, if_false] at h
      simp only [update]
      exact get?_update_some tl (base.set k1 v1) k v h hnd.2

end JsonObj

/-! ## Normalization lemmas -/

theorem keepChar_of_mem_normCore (cs : List Char) (c : Char) (h : c ∈ normCore cs) :
    keepChar c = true :=
  List.of_mem_filter h

theorem replaceChar_of_keep (c : Char) (h : keepChar c = true) : replaceChar c = c := by
  have hs : c ≠ ' ' := by rintro rfl; exact absurd h (by decide)
  have hh : c ≠ '-' := by rintro rfl; exact absurd h (by decide)
  simp [replaceChar, hs, hh]

theorem normCore_eq_self (l : List Char) (h : ∀ c ∈ l, keepChar c = true) :
    normCore l = l := by
  induction l with
  | nil => rfl
  | cons c tl ih =>
    have hc := h c (List.mem_cons_self c tl)
    have htl := ih fun x hx => h x (List.mem_cons_of_mem c hx)
    simp only [normCore, List.map_cons, replaceChar_of_keep c hc, List.filter_cons, hc, if_true]
    simp only [normCore] at htl
    rw [htl]

theorem keepChar_of_mem_normChars (cs : List Char) (c : Char) (h : c ∈ normChars cs) :
    keepChar c = true := by
  unfold normChars at h
  rcases hnc : normCore cs with - | ⟨c0, rest⟩
  · rw [hnc] at h; simp at h
  · rw [hnc] at h
    by_cases hd : pyIsDigit c0 = true
    · simp only [hd, if_true] at h
      rw [List.mem_cons] at h
      rcases h with rfl | h
      · decide
      · exact keepChar_of_mem_normCore cs c (hnc ▸ h)
    · simp only [Bool.not_eq_true] at hd
      simp only [hd, Bool.false_eq_true, if_false] at h
      exact keepChar_of_mem_normCore cs c (hnc ▸ h)

theorem normChars_head_not_digit (cs : List Char) (c : Char) (rest : List Char)
    (h : normChars cs = c :: rest) : pyIsDigit c = false := by
  unfold normChars at h
  rcases hnc : normCore cs with - | ⟨c0, r⟩
  · rw [hnc] at h; simp at h
  · rw [hnc] at h
    by_cases hd : pyIsDigit c0 = true
    · simp only [hd, if_true, List.cons.injEq] at h
      rw [← h.1]; decide
    · simp only [Bool.not_eq_true] at hd
      simp only [hd, Bool.false_eq_true, if_false, List.cons.injEq] at h
      rw [← h.1]; exact hd

theorem normChars_idem (cs : List Char) : normChars (normChars cs) = normChars cs := by
  have hkeep := keepChar_of_mem_normChars cs
  rcases hl : normChars cs with - | ⟨c, rest⟩
  · rfl
  · have hcore : normCore (c :: rest) = c :: rest :=
      normCore_eq_self (c :: rest) fun x hx => hkeep x (hl ▸ hx)
    have hd : pyIsDigit c = false := normChars_head_not_digit cs c rest hl
    unfold normChars
    rw [hcore]
    simp [hd]

/-! ## ASCII helper lemmas for the name invariant -/

theorem pyIsAlnumLatin1_ascii (n : Nat) (h : n < 128) : pyIsAlnumLatin1 n = false := by
  unfold pyIsAlnumLatin1
  rw [decide_eq_false]
  omega

theorem keep_ascii_pattern (c : Char) (hk : keepChar c = true) (ha : c.toNat < 128) :
    (c.isAlphanum || c = '_') = true := by
  unfold keepChar pyIsAlnum at hk
  rw [pyIsAlnumLatin1_ascii c.toNat ha, Bool.or_false] at hk
  exact hk

theorem replaceChar_ascii (c : Char) (h : c.toNat < 128) : (replaceChar c).toNat < 128 := by
  unfold replaceChar
  by_cases h1 : c = ' '
  · simp [h1]
  · by_cases h2 : c = '-'
    · simp [h2]
    · simp [h1, h2, h]

theorem ascii_of_mem_normCore (cs : List Char) (h : ∀ c ∈ cs, c.toNat < 128) :
    ∀ c ∈ normCore cs, c.toNat < 128 := by
  intro c hc
  have hc' := List.mem_of_mem_filter hc
  rcases List.mem_map.mp hc' with ⟨a, ha, rfl⟩
  exact replaceChar_ascii a (h a ha)

theorem ascii_of_mem_normChars (cs : List Char) (h : ∀ c ∈ cs, c.toNat < 128) :
    ∀ c ∈ normChars cs, c.toNat < 128 := by
  intro c hc
  unfold normChars at hc
  rcases hnc : normCore cs with - | ⟨c0, r⟩
  · rw [hnc] at hc; simp at hc
  · rw [hnc] at hc
    by_cases hd : pyIsDigit c0 = true
    · simp only [hd, if_true] at hc
      rw [List.mem_cons] at hc
      rcases hc with rfl | hc
      · decide
      · exact ascii_of_mem_normCore cs h c (hnc ▸ hc)
    · simp only [Bool.not_eq_true] at hd
      simp only [hd, Bool.false_eq_true, if_false] at hc
      exact ascii_of_mem_normCore cs h c (hnc ▸ hc)

/-! ## Claims -/

/-- C6: name normalization is idempotent: for every string `s`,
`_normalize_name (_normalize_name s) = _normalize_name s`. -/
theorem normalize_name_idempotent (s : String) :
    _normalize_name (_normalize_name s) = _normalize_name s := by
  rcases hl : normChars s.data with - | ⟨c, rest⟩
  · have h1 : _normalize_name s = "unnamed_tool" := by
      unfold _normalize_name; rw [hl]
    rw [h1]; decide
  · have h1 : _normalize_name s = String.mk (c :: rest) := by
      unfold _normalize_name; rw [hl]
    rw [h1]
    have h2 : normChars (c :: rest) = c :: rest := by
      have h3 := normChars_idem s.data
      rwa [hl] at h3
    unfold _normalize_name
    have hd : (String.mk (c :: rest)).data = c :: rest := rfl
    rw [hd, h2]

/-- C4: converting the document
`{"name": "Get Weather", "description": "Gets weather",
"properties": {"city": {"type": "string"}}, "required": ["city"]}`
to the OpenAI format returns exactly the expected tool definition. -/
theorem convert_get_weather_openai_scenario :
    SchemaConverter.convert
      (.cons "name" (Json.str "Get Weather")
        (.cons "description" (Json.str "Gets weather")
          (.cons "properties" (Json.obj (.cons "city" (Json.obj (.cons "type" (Json.str "string") .nil)) .nil))
            (.cons "required" (Json.arr (.cons (Json.str "city") .nil)) .nil)))) "openai"
    = Except.ok (Json.obj
        (.cons "type" (Json.str "function")
          (.cons "function" (Json.obj
            (.cons "name" (Json.str "Get_Weather")
              (.cons "description" (Json.str "Gets weather")
                (.cons "parameters" (Json.obj
                  (.cons "type" (Json.str "object")
                    (.cons "properties" (Json.obj (.cons "city" (Json.obj (.cons "type" (Json.str "string") .nil)) .nil))
                      (.cons "required" (Json.arr (.cons (Json.str "city") .nil)) .nil)))) .nil)))) .nil))) := by
  decide

/-- C8: for every schema document and every target format other than
`"openai"` and `"anthropic"`, `convert` raises the unsupported-format
`ValueError` and produces no tool definition. -/
theorem convert_unsupported_format (schema : JsonObj) (fm : String)
    (h1 : fm ≠ "openai") (h2 : fm ≠ "anthropic") :
    SchemaConverter.convert schema fm = Except.error (PyErr.valueError
      ("Unsupported format: " ++ fm ++ ". Supported formats: " ++
        String.intercalate ", " SchemaConverter.SUPPORTED_FORMATS)) := by
  unfold SchemaConverter.convert
  rw [if_neg]
  simp [SchemaConverter.SUPPORTED_FORMATS, h1, h2]

/-- Witness for C8 at the concrete format `"bogus"`. -/
theorem convert_unsupported_format_witness :
    SchemaConverter.convert JsonObj.nil "bogus" = Except.error (PyErr.valueError
      "Unsupported format: bogus. Supported formats: openai, anthropic") :=
  convert_unsupported_format JsonObj.nil "bogus" (by decide) (by decide)

/-- C1 counterexample: the mapping `{"type": "string"}` has neither a
`properties` nor a `parameters` key, extraction succeeds, and the resulting
parameters object has `type` equal to `"string"`, not `"object"`: the code
only sets `type: "object"` when the document has no `type` key. -/
theorem extract_keeps_existing_type_counterexample :
    (JsonObj.cons "type" (Json.str "string") JsonObj.nil).hasKey "properties" = false
    ∧ (JsonObj.cons "type" (Json.str "string") JsonObj.nil).hasKey "parameters" = false
    ∧ SchemaConverter._extract_tool_metadata (JsonObj.cons "type" (Json.str "string") JsonObj.nil)
        = Except.ok ⟨"unnamed_tool", Json.str "",
            Json.obj (JsonObj.cons "type" (Json.str "string") JsonObj.nil)⟩
    ∧ (JsonObj.cons "type" (Json.str "string") JsonObj.nil).get? "type" ≠ some (Json.str "object") := by
  decide

/-- C1 amended: for every mapping without `properties`, `parameters` and
`type` keys, on which extraction succeeds, the resulting parameters object
has `type: "object"`.  (When the document already carries a `type` key, that
value is kept verbatim.) -/
theorem extract_no_type_defaults_object (schema : JsonObj) (md : ToolMetadata)
    (hp : schema.hasKey "properties" = false)
    (hq : schema.hasKey "parameters" = false)
    (ht : schema.hasKey "type" = false)
    (hok : SchemaConverter._extract_tool_metadata schema = Except.ok md) :
    ∃ pes, md.parameters = Json.obj pes ∧ pes.get? "type" = some (Json.str "object") := by
  have hpt : (((schema.pop "name").pop "title").pop "description").hasKey "type" = false := by
    rw [JsonObj.hasKey_pop_ne _ _ _ (by decide), JsonObj.hasKey_pop_ne _ _ _ (by decide),
      JsonObj.hasKey_pop_ne _ _ _ (by decide)]
    exact ht
  simp only [SchemaConverter._extract_tool_metadata] at hok
  rw [hp, hq, hpt] at hok
  simp only [Bool.false_eq_true, if_false] at hok
  rcases hnv : schema.getD "name" (schema.getD "title" (Json.str "unnamed_tool")) with
    - | b | n | sN | el | eo <;> rw [hnv] at hok
  case str =>
    cases hok
    exact ⟨_, rfl, JsonObj.get?_set_self _ "type" _⟩
  all_goals exact Except.noConfusion hok

/-- Witness for the amended C1 at the concrete mapping `{"foo": 1}`. -/
theorem extract_no_type_defaults_object_witness :
    ∃ pes, (ToolMetadata.mk "unnamed_tool" (Json.str "")
        (Json.obj (JsonObj.cons "foo" (Json.num 1)
          (JsonObj.cons "type" (Json.str "object") JsonObj.nil)))).parameters = Json.obj pes
      ∧ pes.get? "type" = some (Json.str "object") :=
  extract_no_type_defaults_object (JsonObj.cons "foo" (Json.num 1) JsonObj.nil) _
    (by decide) (by decide) (by decide) (by decide)

/-- C5 counterexample: Python `str.isalnum` is Unicode-aware, so the
normalized name of `"é"` is `"é"` itself, which does not match
`^_?[A-Za-z0-9_]*$`. -/
theorem normalize_name_pattern_counterexample :
    _normalize_name "é" = "é" ∧ matchesNamePattern (_normalize_name "é") = false := by
  decide

/-- C5 amended: for every string the normalized name is non-empty and never
starts with a digit; when every input character is ASCII the result also
matches `^_?[A-Za-z0-9_]*$`.  (For non-ASCII input the regular-expression
part fails, since Python `str.isalnum` admits non-ASCII letters.) -/
theorem normalize_name_invariants (s : String) :
    _normalize_name s ≠ ""
    ∧ (∀ c rest, (_normalize_name s).data = c :: rest → pyIsDigit c = false)
    ∧ ((∀ c ∈ s.data, c.toNat < 128) → matchesNamePattern (_normalize_name s) = true) := by
  rcases hl : normChars s.data with - | ⟨c0, rest0⟩
  · have h1 : _normalize_name s = "unnamed_tool" := by
      unfold _normalize_name; rw [hl]
    rw [h1]
    refine ⟨by decide, ?_, fun _ => by decide⟩
    intro c rest hc
    have h2 : 'u' :: "nnamed_tool".data = c :: rest := hc
    injection h2 with h2a h2b
    rw [← h2a]; decide
  · have h1 : _normalize_name s = String.mk (c0 :: rest0) := by
      unfold _normalize_name; rw [hl]
    rw [h1]
    refine ⟨?_, ?_, ?_⟩
    · intro hEq
      have h2 := congrArg String.data hEq
      simp at h2
    · intro c rest hc
      have h2 : c0 :: rest0 = c :: rest := hc
      injection h2 with h2a h2b
      rw [← h2a]
      exact normChars_head_not_digit s.data c0 rest0 hl
    · intro hascii
      unfold matchesNamePattern
      rw [List.all_eq_true]
      intro c hc
      have hc' : c ∈ normChars s.data := hl ▸ hc
      exact keep_ascii_pattern c (keepChar_of_mem_normChars s.data c hc')
        (ascii_of_mem_normChars s.data hascii c hc')

/-- Witness for the amended C5 at the concrete input `"9 tools"`
(normalized to `"_9_tools"`). -/
theorem normalize_name_invariants_witness :
    _normalize_name "9 tools" ≠ ""
    ∧ pyIsDigit '_' = false
    ∧ matchesNamePattern (_normalize_name "9 tools") = true := by
  have h := normalize_name_invariants "9 tools"
  exact ⟨h.1, h.2.1 '_' "9_tools".data (by decide), h.2.2 (by decide)⟩

/-- C2: for every canonical metadata value whose name is non-empty, the
formatted tool validates, for both the OpenAI and the Anthropic mapper. -/
theorem format_validate_roundtrip (m : ToolMetadata) (h : IsCanonicalMeta m) :
    (OpenAIFormatter.validate (OpenAIFormatter.format m)).1 = true
    ∧ (AnthropicFormatter.validate (AnthropicFormatter.format m)).1 = true := by
  obtain ⟨hn, -, ⟨d, hd⟩, pes, hp, hpt, hpp⟩ := h
  have hpt' : (pes.get? "type").getD Json.null = Json.str "object" := hpt
  have hpp' : (pes.get? "properties").isSome = true := hpp
  constructor
  · simp only [OpenAIFormatter.format]
    rw [hd, hp]
    simp [OpenAIFormatter.validate, JsonObj.getD, JsonObj.get?, JsonObj.hasKey, hn, hpt', hpp']
  · simp only [AnthropicFormatter.format]
    rw [hd, hp]
    simp [AnthropicFormatter.validate, JsonObj.getD, JsonObj.get?, JsonObj.hasKey, hn, hpt', hpp']

/-- Witness for C2 at a concrete canonical metadata value. -/
theorem format_validate_roundtrip_witness :
    (OpenAIFormatter.validate (OpenAIFormatter.format ⟨"t", Json.str "", Json.obj
        (JsonObj.cons "type" (Json.str "object")
          (JsonObj.cons "properties" (Json.obj JsonObj.nil) JsonObj.nil))⟩)).1 = true
    ∧ (AnthropicFormatter.validate (AnthropicFormatter.format ⟨"t", Json.str "", Json.obj
        (JsonObj.cons "type" (Json.str "object")
          (JsonObj.cons "properties" (Json.obj JsonObj.nil) JsonObj.nil))⟩)).1 = true :=
  format_validate_roundtrip _ ⟨by decide, by decide, ⟨"", rfl⟩, _, rfl, by decide, by decide⟩

/-- C3: for every document with a `properties` key on which extraction
succeeds, the resulting parameters object is
`{type: "object", properties: <document properties>}` with `required`
copied exactly when present and `additionalProperties` copied exactly when
present and not null, and it never contains a `title` key. -/
theorem extract_path1_shape (schema : JsonObj) (md : ToolMetadata)
    (hprops : schema.hasKey "properties" = true)
    (hok : SchemaConverter._extract_tool_metadata schema = Except.ok md) :
    ∃ pes, md.parameters = Json.obj pes
      ∧ pes.get? "type" = some (Json.str "object")
      ∧ pes.get? "properties" = some (schema.getD "properties" (Json.obj JsonObj.nil))
      ∧ (schema.hasKey "required" = true → pes.get? "required" = some (schema.getD "required" Json.null))
      ∧ (schema.hasKey "required" = false → pes.hasKey "required" = false)
      ∧ (schema.getD "additionalProperties" Json.null ≠ Json.null →
          pes.get? "additionalProperties" = some (schema.getD "additionalProperties" Json.null))
      ∧ (schema.getD "additionalProperties" Json.null = Json.null →
          pes.hasKey "additionalProperties" = false)
      ∧ pes.hasKey "title" = false := by
  simp only [SchemaConverter._extract_tool_metadata] at hok
  rw [if_pos hprops] at hok
  rcases hnv : schema.getD "name" (schema.getD "title" (Json.str "unnamed_tool")) with
    - | b | n | sN | el | eo <;> rw [hnv] at hok
  case str =>
    cases hok
    refine ⟨_, rfl, ?_, ?_, ?_, ?_, ?_, ?_, ?_⟩ <;>
      [skip; skip; intro hr; intro hr; intro hap; intro hap; skip] <;>
      (try split) <;> (try split) <;>
      simp_all [JsonObj.get?_set_ne, JsonObj.get?_set_self, JsonObj.get?, JsonObj.hasKey]
  all_goals exact Except.noConfusion hok

/-- Witness for C3 at the concrete document `{"properties": {}}`. -/
theorem extract_path1_shape_witness :
    ∃ pes, (ToolMetadata.mk "unnamed_tool" (Json.str "")
        (Json.obj (JsonObj.cons "type" (Json.str "object")
          (JsonObj.cons "properties" (Json.obj JsonObj.nil) JsonObj.nil)))).parameters = Json.obj pes
      ∧ pes.get? "type" = some (Json.str "object")
      ∧ pes.get? "properties" = some (Json.obj JsonObj.nil)
      ∧ ((JsonObj.cons "properties" (Json.obj JsonObj.nil) JsonObj.nil).hasKey "required" = true →
          pes.get? "required" = some Json.null)
      ∧ ((JsonObj.cons "properties" (Json.obj JsonObj.nil) JsonObj.nil).hasKey "required" = false →
          pes.hasKey "required" = false)
      ∧ (Json.null ≠ Json.null → pes.get? "additionalProperties" = some Json.null)
      ∧ (Json.null = Json.null → pes.hasKey "additionalProperties" = false)
      ∧ pes.hasKey "title" = false :=
  extract_path1_shape (JsonObj.cons "properties" (Json.obj JsonObj.nil) JsonObj.nil) _
    (by decide) (by decide)

/-- C7: both validators return a validity flag that is true exactly when the
defect list is empty; a non-mapping input is rejected with exactly the one
defect `"Tool must be a dictionary"` and no field-level checks run; for
mapping inputs the defect list is the concatenation of the outcomes of every
applicable field-level check (for OpenAI, once the `function` value is a
mapping; for Anthropic, unconditionally), so no defect hides another.
(In the embedding the validators are total functions, which renders the
never-raises part of the claim.) -/
theorem validators_report_defects (t : Json) :
    ((OpenAIFormatter.validate t).1 = true ↔ (OpenAIFormatter.validate t).2 = [])
    ∧ ((AnthropicFormatter.validate t).1 = true ↔ (AnthropicFormatter.validate t).2 = [])
    ∧ ((∀ es, t ≠ Json.obj es) →
        OpenAIFormatter.validate t = (false, ["Tool must be a dictionary"])
        ∧ AnthropicFormatter.validate t = (false, ["Tool must be a dictionary"]))
    ∧ (∀ es fes, t = Json.obj es → es.get? "function" = some (Json.obj fes) →
        (OpenAIFormatter.validate t).2 =
          OpenAIFormatter.checkToolType es ++ OpenAIFormatter.checkFunctionName fes
            ++ OpenAIFormatter.checkFunctionDescription fes ++ OpenAIFormatter.checkFunctionParams fes)
    ∧ (∀ es, t = Json.obj es →
        (AnthropicFormatter.validate t).2 =
          AnthropicFormatter.checkToolName es ++ AnthropicFormatter.checkToolDescription es
            ++ AnthropicFormatter.checkInputSchema es)
    ∧ (∀ es, t = Json.obj es → es.hasKey "function" = false →
        (OpenAIFormatter.validate t).2 =
          OpenAIFormatter.checkToolType es ++ ["Tool must have a \x27function\x27 field"])
    ∧ (∀ es v, t = Json.obj es → es.get? "function" = some v → (∀ fes, v ≠ Json.obj fes) →
        (OpenAIFormatter.validate t).2 =
          OpenAIFormatter.checkToolType es ++ ["\x27function\x27 must be a dictionary"]) := by
  refine ⟨?_, ?_, ?_, ?_, ?_, ?_, ?_⟩
  · rcases t with - | b | n | s | el | es
    case obj =>
      simp only [OpenAIFormatter.validate]
      split
      · simp [List.length_eq_zero]
      · split <;> simp [List.length_eq_zero]
    all_goals simp [OpenAIFormatter.validate]
  · rcases t with - | b | n | s | el | es
    case obj =>
      simp only [AnthropicFormatter.validate]
      simp [List.length_eq_zero]
    all_goals simp [AnthropicFormatter.validate]
  · intro h
    rcases t with - | b | n | s | el | es <;>
      first
        | exact ⟨rfl, rfl⟩
        | exact absurd rfl (h es)
  · intro es fes ht hf
    subst ht
    have hhk : es.hasKey "function" = true := by simp [JsonObj.hasKey, hf]
    have hgd : es.getD "function" Json.null = Json.obj fes := by simp [JsonObj.getD, hf]
    simp [OpenAIFormatter.validate, hhk, hgd, OpenAIFormatter.checkToolType,
      OpenAIFormatter.checkFunctionName, OpenAIFormatter.checkFunctionDescription,
      OpenAIFormatter.checkFunctionParams, List.append_assoc]
  · intro es ht
    subst ht
    rfl
  · intro es ht hk
    subst ht
    simp [OpenAIFormatter.validate, hk, OpenAIFormatter.checkToolType]
  · intro es v ht hv hnv
    subst ht
    have hhk : es.hasKey "function" = true := by simp [JsonObj.hasKey, hv]
    have hgd : es.getD "function" Json.null = v := by simp [JsonObj.getD, hv]
    rcases v with - | b | n | s | el | eo
    case obj => exact absurd rfl (hnv eo)
    all_goals simp [OpenAIFormatter.validate, hhk, hgd, OpenAIFormatter.checkToolType]

/-- Witness for C7 at the non-mapping input `3`. -/
theorem validators_report_defects_witness :
    OpenAIFormatter.validate (Json.num 3) = (false, ["Tool must be a dictionary"])
    ∧ AnthropicFormatter.validate (Json.num 3) = (false, ["Tool must be a dictionary"]) :=
  (validators_report_defects (Json.num 3)).2.2.1 (fun _ h => Json.noConfusion h)

/-- C9: extraction and conversion leave the input document unchanged.  In
the state-threaded rendering of the code, in which every mutation is applied
to the dictionary object it targets, the value of `self.schema` after the
call equals the value before it, and the threaded functions compute the same
results as the plain ones; on extraction path 3 the key removals apply only
to the copy. -/
theorem extract_convert_no_side_effects (schema : JsonObj) (fm : String) :
    (SchemaConverter._extract_tool_metadata_st schema).1 = schema
    ∧ (SchemaConverter._extract_tool_metadata_st schema).2 = SchemaConverter._extract_tool_metadata schema
    ∧ (SchemaConverter.convert_st schema fm).1 = schema
    ∧ (SchemaConverter.convert_st schema fm).2 = SchemaConverter.convert schema fm := by
  have h2 : (SchemaConverter._extract_tool_metadata_st schema).2
      = SchemaConverter._extract_tool_metadata schema := rfl
  refine ⟨rfl, h2, ?_, ?_⟩
  · unfold SchemaConverter.convert_st
    by_cases hm : fm ∈ SchemaConverter.SUPPORTED_FORMATS
    · rw [if_pos hm]
      rcases hst : SchemaConverter._extract_tool_metadata_st schema with ⟨s1, e | mdv⟩
      · exact (congrArg Prod.fst hst).symm
      · dsimp only
        split
        · exact (congrArg Prod.fst hst).symm
        · split
          · exact (congrArg Prod.fst hst).symm
          · exact (congrArg Prod.fst hst).symm
    · rw [if_neg hm]
  · unfold SchemaConverter.convert_st SchemaConverter.convert
    by_cases hm : fm ∈ SchemaConverter.SUPPORTED_FORMATS
    · rw [if_pos hm, if_pos hm]
      rcases hst : SchemaConverter._extract_tool_metadata_st schema with ⟨s1, e | mdv⟩
      · have hr : SchemaConverter._extract_tool_metadata schema = Except.error e := by
          rw [← h2, hst]
        rw [hr]
      · have hr : SchemaConverter._extract_tool_metadata schema = Except.ok mdv := by
          rw [← h2, hst]
        rw [hr]
        dsimp only
        split
        · rfl
        · split <;> rfl
    · rw [if_neg hm, if_neg hm]

/-- C10: in both `extract_schema` operations the parameters mapping is
merged into the reconstructed schema after the top-level `name` and
`description` are set, so any `name` or `description` key inside the
parameters mapping (key `k` below) overwrites the tool value in the result. -/
theorem extract_schema_inner_overwrites (tool : JsonObj) (k : String) (v : Json) :
    (∀ fes pes, tool.get? "function" = some (Json.obj fes) →
      fes.get? "parameters" = some (Json.obj pes) → pes.keys.Nodup → pes.get? k = some v →
      ∃ out, OpenAIFormatter.extract_schema tool = Except.ok (Json.obj out)
        ∧ out.get? k = some v)
    ∧ (∀ ses, tool.get? "input_schema" = some (Json.obj ses) → ses.keys.Nodup → ses.get? k = some v →
      ∃ out, AnthropicFormatter.extract_schema tool = Except.ok (Json.obj out)
        ∧ out.get? k = some v) := by
  constructor
  · intro fes pes hf hp hnd hv
    have hgf : tool.getD "function" (Json.obj JsonObj.nil) = Json.obj fes := by
      simp [JsonObj.getD, hf]
    have hgp : fes.getD "parameters" (Json.obj JsonObj.nil) = Json.obj pes := by
      simp [JsonObj.getD, hp]
    refine ⟨(JsonObj.cons "name" (fes.getD "name" (Json.str ""))
        (JsonObj.cons "description" (fes.getD "description" (Json.str "")) JsonObj.nil)).update pes,
      ?_, JsonObj.get?_update_some pes _ k v hv hnd⟩
    simp [OpenAIFormatter.extract_schema, hgf, hgp]
  · intro ses hs hnd hv
    have hgs : tool.getD "input_schema" (Json.obj JsonObj.nil) = Json.obj ses := by
      simp [JsonObj.getD, hs]
    refine ⟨(JsonObj.cons "name" (tool.getD "name" (Json.str ""))
        (JsonObj.cons "description" (tool.getD "description" (Json.str "")) JsonObj.nil)).update ses,
      ?_, JsonObj.get?_update_some ses _ k v hv hnd⟩
    simp [AnthropicFormatter.extract_schema, hgs]

/-- Witness for C10: an inner `name` overwrites the OpenAI function name,
and an inner `description` overwrites the Anthropic tool description. -/
theorem extract_schema_inner_overwrites_witness :
    (∃ out, OpenAIFormatter.extract_schema
        (JsonObj.cons "function" (Json.obj (JsonObj.cons "name" (Json.str "f")
          (JsonObj.cons "parameters" (Json.obj (JsonObj.cons "name" (Json.str "inner") JsonObj.nil))
            JsonObj.nil))) JsonObj.nil)
      = Except.ok (Json.obj out) ∧ out.get? "name" = some (Json.str "inner"))
    ∧ (∃ out, AnthropicFormatter.extract_schema
        (JsonObj.cons "name" (Json.str "g")
          (JsonObj.cons "input_schema" (Json.obj (JsonObj.cons "description" (Json.str "inner2") JsonObj.nil))
            JsonObj.nil))
      = Except.ok (Json.obj out) ∧ out.get? "description" = some (Json.str "inner2")) :=
  ⟨(extract_schema_inner_overwrites
      (JsonObj.cons "function" (Json.obj (JsonObj.cons "name" (Json.str "f")
        (JsonObj.cons "parameters" (Json.obj (JsonObj.cons "name" (Json.str "inner") JsonObj.nil))
          JsonObj.nil))) JsonObj.nil) "name" (Json.str "inner")).1
      (JsonObj.cons "name" (Json.str "f")
        (JsonObj.cons "parameters" (Json.obj (JsonObj.cons "name" (Json.str "inner") JsonObj.nil))
          JsonObj.nil))
      (JsonObj.cons "name" (Json.str "inner") JsonObj.nil)
      (by decide) (by decide) (by decide) (by decide),
   (extract_schema_inner_overwrites
      (JsonObj.cons "name" (Json.str "g")
        (JsonObj.cons "input_schema" (Json.obj (JsonObj.cons "description" (Json.str "inner2") JsonObj.nil))
          JsonObj.nil)) "description" (Json.str "inner2")).2
      (JsonObj.cons "description" (Json.str "inner2") JsonObj.nil)
      (by decide) (by decide) (by decide)⟩
